import Mathlib

/-!
Shallow embedding of the certificate probing and protocol dispatch engine of
UltraPKI/certscan (internal/scanner/scanner.go, protocol-aware version), with
theorems settling the frozen claims about the repository's specification.

Modelling conventions:
- Go byte slices ([]byte) are `List Nat` whose elements are below 256; the
  bound appears as an explicit hypothesis where a theorem needs it.
- Go strings are Lean `String`; `strings.ToLower`/`ToUpper` are modelled on
  the ASCII range, which covers every string the scanner compares.
- Network effects (TCP dial, TLS handshakes, server replies, HTTP statuses)
  are inputs to the embedded functions: a probe outcome, a scripted SMTP
  server trace, or a response status, exactly as the surrounding Go code
  observes them.
- x509.ParseCertificate is external library code; it enters the embedding as
  an explicit `parse : List Nat → Option Cert` argument, a function from DER
  bytes to the two fields the scanner reads (issuer DN string, subject CN).
-/

namespace Certscan

/-- ASCII lowercase of one character, modelling Go `strings.ToLower`
character-wise on the ASCII range. -/
def toLowerChar (c : Char) : Char :=
  if 'A' ≤ c ∧ c ≤ 'Z' then Char.ofNat (c.toNat + 32) else c

/-- ASCII uppercase of one character, modelling Go `strings.ToUpper`
character-wise on the ASCII range. -/
def toUpperChar (c : Char) : Char :=
  if 'a' ≤ c ∧ c ≤ 'z' then Char.ofNat (c.toNat - 32) else c

/-- Lowercased character list of a string (Go `strings.ToLower`). -/
def lowerList (s : String) : List Char :=
  s.toList.map toLowerChar

/-- Substring test on character lists, modelling Go `strings.Contains`:
`listContains hay needle` holds when `needle` occurs contiguously in `hay`. -/
def listContains : List Char → List Char → Bool
  | [], needle => needle.isEmpty
  | c :: t, needle => needle.isPrefixOf (c :: t) || listContains t needle

/-- Embedding of `matchWildcard` (scanner.go): case-insensitive matching
supporting exact, `*`, `prefix*`, `*suffix` and `*contains*` patterns; the
empty pattern never matches. -/
def matchWildcard (pattern s : String) : Bool :=
  if pattern = "" then false
  else
    let p := lowerList pattern
    let t := lowerList s
    if p = ['*'] then true
    else if p.head? = some '*' && p.getLast? = some '*' then
      listContains t ((p.drop 1).dropLast)
    else if p.head? = some '*' then
      (p.drop 1).isSuffixOf t
    else if p.getLast? = some '*' then
      p.dropLast.isPrefixOf t
    else p = t

/-- The matcher behaviour as the specification words it: an empty pattern
never matches; `*` matches everything; a pattern starting and ending in `*`
matches the strings containing its middle; `*suffix` matches the strings with
that suffix; `prefix*` the strings with that prefix; anything else matches
only its own text — all case-insensitively. Stated for comparison with
`matchWildcard`, which is translated from the source. -/
def specMatchWildcard (pattern s : String) : Bool :=
  let p := lowerList pattern
  let t := lowerList s
  if pattern = "" then false
  else if p = ['*'] then true
  else if p.head? ≠ some '*' ∧ p.getLast? = some '*' then
    p.dropLast.isPrefixOf t
  else if p.head? = some '*' ∧ p.getLast? ≠ some '*' then
    (p.drop 1).isSuffixOf t
  else if p.head? = some '*' ∧ p.getLast? = some '*' then
    listContains t ((p.drop 1).dropLast)
  else p = t

/-- C5: the wildcard matcher agrees with the spec's case analysis on every
pattern and string, and the five concrete vectors of the spec hold:
`*.example.com` matches `mail.example.com`, `*example*` matches `xexampley`,
`example.com` matches itself, the empty pattern rejects `anything`, and `*`
matches the empty string. -/
theorem matchWildcard_spec :
    (∀ pattern s, matchWildcard pattern s = specMatchWildcard pattern s) ∧
    matchWildcard "*.example.com" "mail.example.com" = true ∧
    matchWildcard "*example*" "xexampley" = true ∧
    matchWildcard "example.com" "example.com" = true ∧
    matchWildcard "" "anything" = false ∧
    matchWildcard "*" "" = true := by
  refine ⟨fun pattern s => ?_, by decide, by decide, by decide, by decide, by decide⟩
  unfold matchWildcard specMatchWildcard
  by_cases h0 : pattern = "" <;> simp only [h0, if_true, if_false, reduceIte]
  by_cases hstar : lowerList pattern = ['*'] <;>
    simp only [hstar, if_true, if_false, reduceIte]
  by_cases hh : (lowerList pattern).head? = some '*' <;>
    by_cases hl : (lowerList pattern).getLast? = some '*' <;>
    simp [hh, hl]

/-! ### Base64 (Go `encoding/base64` StdEncoding, as used by the scanner) -/

/-- Character of one 6-bit value in the standard base64 alphabet. -/
def sextetToChar (v : Nat) : Char :=
  if v < 26 then Char.ofNat (65 + v)
  else if v < 52 then Char.ofNat (71 + v)
  else if v < 62 then Char.ofNat (v - 4)
  else if v = 62 then '+'
  else '/'

/-- Value of one standard base64 alphabet character, as a 6-bit number. -/
def charToSextet (c : Char) : Option Nat :=
  if 'A' ≤ c ∧ c ≤ 'Z' then some (c.toNat - 65)
  else if 'a' ≤ c ∧ c ≤ 'z' then some (c.toNat - 71)
  else if '0' ≤ c ∧ c ≤ '9' then some (c.toNat + 4)
  else if c = '+' then some 62
  else if c = '/' then some 63
  else none

theorem charToSextet_sextetToChar : ∀ v < 64, charToSextet (sextetToChar v) = some v := by
  decide

theorem sextetToChar_ne_pad : ∀ v < 64, sextetToChar v ≠ '=' := by
  decide

/-- Base64 encoding of a byte sequence with standard padding, modelling
`base64.StdEncoding.EncodeToString`. -/
def encodeB64 : List Nat → List Char
  | [] => []
  | [a] => [sextetToChar (a / 4), sextetToChar (a % 4 * 16), '=', '=']
  | [a, b] => [sextetToChar (a / 4), sextetToChar (a % 4 * 16 + b / 16),
      sextetToChar (b % 16 * 4), '=']
  | a :: b :: c :: rest =>
      sextetToChar (a / 4) :: sextetToChar (a % 4 * 16 + b / 16) ::
      sextetToChar (b % 16 * 4 + c / 64) :: sextetToChar (c % 64) :: encodeB64 rest

/-- Decoding of the final base64 quantum, which may carry `=` padding. -/
def decodeChunkFinal (c1 c2 c3 c4 : Char) : Option (List Nat) :=
  match charToSextet c1, charToSextet c2 with
  | some v1, some v2 =>
    if c3 = '=' then
      if c4 = '=' then some [v1 * 4 + v2 / 16] else none
    else
      match charToSextet c3 with
      | some v3 =>
        if c4 = '=' then some [v1 * 4 + v2 / 16, v2 % 16 * 16 + v3 / 4]
        else
          match charToSextet c4 with
          | some v4 => some [v1 * 4 + v2 / 16, v2 % 16 * 16 + v3 / 4, v3 % 4 * 64 + v4]
          | none => none
      | none => none
  | _, _ => none

/-- Base64 decoding, modelling `base64.StdEncoding.DecodeString`: input must
be a whole number of 4-character quanta, `=` padding may appear only in the
final quantum, and any character outside the alphabet fails the decode. -/
def decodeB64 : List Char → Option (List Nat)
  | [] => some []
  | [c1, c2, c3, c4] => decodeChunkFinal c1 c2 c3 c4
  | c1 :: c2 :: c3 :: c4 :: rest =>
      match charToSextet c1, charToSextet c2, charToSextet c3, charToSextet c4 with
      | some v1, some v2, some v3, some v4 =>
          match decodeB64 rest with
          | some bs => some ((v1 * 4 + v2 / 16) :: (v2 % 16 * 16 + v3 / 4) ::
              (v3 % 4 * 64 + v4) :: bs)
          | none => none
      | _, _, _, _ => none
  | _ => none

theorem encodeB64_ne_nil (a : Nat) (rest : List Nat) : encodeB64 (a :: rest) ≠ [] := by
  match rest with
  | [] => simp [encodeB64]
  | [b] => simp [encodeB64]
  | b :: c :: t => simp [encodeB64]

/-- Decoding inverts encoding on byte sequences (every element below 256). -/
theorem decodeB64_encodeB64 : ∀ l : List Nat, (∀ b ∈ l, b < 256) →
    decodeB64 (encodeB64 l) = some l
  | [], _ => rfl
  | [a], h => by
      have ha : a < 256 := h a (by simp)
      have h1 := charToSextet_sextetToChar (a / 4) (by omega)
      have h2 := charToSextet_sextetToChar (a % 4 * 16) (by omega)
      simp [encodeB64, decodeB64, decodeChunkFinal, h1, h2]
      omega
  | [a, b], h => by
      have ha : a < 256 := h a (by simp)
      have hb : b < 256 := h b (by simp)
      have h1 := charToSextet_sextetToChar (a / 4) (by omega)
      have h2 := charToSextet_sextetToChar (a % 4 * 16 + b / 16) (by omega)
      have h3 := charToSextet_sextetToChar (b % 16 * 4) (by omega)
      have hne := sextetToChar_ne_pad (b % 16 * 4) (by omega)
      simp [encodeB64, decodeB64, decodeChunkFinal, h1, h2, h3, hne]
      omega
  | a :: b :: c :: rest, h => by
      have ha : a < 256 := h a (by simp)
      have hb : b < 256 := h b (by simp)
      have hc : c < 256 := h c (by simp)
      have h1 := charToSextet_sextetToChar (a / 4) (by omega)
      have h2 := charToSextet_sextetToChar (a % 4 * 16 + b / 16) (by omega)
      have h3 := charToSextet_sextetToChar (b % 16 * 4 + c / 64) (by omega)
      have h4 := charToSextet_sextetToChar (c % 64) (by omega)
      have hne3 := sextetToChar_ne_pad (b % 16 * 4 + c / 64) (by omega)
      have hne4 := sextetToChar_ne_pad (c % 64) (by omega)
      have ih := decodeB64_encodeB64 rest (fun x hx => h x (by simp [hx]))
      cases rest with
      | nil =>
          simp [encodeB64, decodeB64, decodeChunkFinal, h1, h2, h3, h4, hne3, hne4]
          omega
      | cons r rs =>
          cases hE : encodeB64 (r :: rs) with
          | nil => exact absurd hE (encodeB64_ne_nil r rs)
          | cons e es =>
              rw [hE] at ih
              simp [encodeB64, hE, decodeB64, h1, h2, h3, h4, ih]
              omega

/-! ### Certificate exclusion filter -/

/-- The two fields of a parsed X.509 certificate that the scanner reads:
`cert.Issuer.String()` and `cert.Subject.CommonName`. -/
structure Cert where
  issuer : String
  cn : String
  deriving DecidableEq

/-- Embedding of `config.ExcludeCertRule`: wildcard patterns for the issuer
distinguished name and the subject common name. -/
structure ExcludeCertRule where
  issuer : String
  cn : String
  deriving DecidableEq

/-- Embedding of `isCertExcluded` (scanner.go): a certificate is excluded if
any rule's non-empty issuer pattern matches the issuer DN, or its non-empty
CN pattern matches the subject common name. -/
def isCertExcluded (cert : Cert) (rules : List ExcludeCertRule) : Bool :=
  rules.any fun rule =>
    (rule.issuer ≠ "" && matchWildcard rule.issuer cert.issuer) ||
    (rule.cn ≠ "" && matchWildcard rule.cn cert.cn)

/-- Embedding of `filterCerts` (scanner.go): parse each DER candidate with
`parse` (modelling `x509.ParseCertificate`), silently drop unparsable bytes,
drop excluded certificates, and keep the survivors as base64 strings in
encounter order. -/
def filterCerts (parse : List Nat → Option Cert) (derCerts : List (List Nat))
    (rules : List ExcludeCertRule) : List String :=
  derCerts.filterMap fun der =>
    match parse der with
    | none => none
    | some cert =>
        if isCertExcluded cert rules then none
        else some (String.mk (encodeB64 der))

/-- Embedding of `decodeBase64Certs` (scanner.go): base64-decode each string,
keeping only the successfully decoded byte slices, in order. -/
def decodeBase64Certs (b64certs : List String) : List (List Nat) :=
  b64certs.filterMap fun b64 => decodeB64 b64.toList

/-- C6: the exclusion filter is idempotent — decoding the filter's output and
filtering again with the same rules reproduces the output. Holds for every
parse function, every byte-valued input, and every rule set. -/
theorem filterCerts_idempotent (parse : List Nat → Option Cert)
    (x : List (List Nat)) (rules : List ExcludeCertRule)
    (h : ∀ der ∈ x, ∀ b ∈ der, b < 256) :
    filterCerts parse (decodeBase64Certs (filterCerts parse x rules)) rules =
      filterCerts parse x rules := by
  induction x with
  | nil => rfl
  | cons der rest ih =>
      have hder : ∀ b ∈ der, b < 256 := h der (by simp)
      have hrest : ∀ d ∈ rest, ∀ b ∈ d, b < 256 := fun d hd => h d (by simp [hd])
      have ih' := ih hrest
      cases hp : parse der with
      | none =>
          simpa [filterCerts, List.filterMap_cons, hp] using ih'
      | some cert =>
          cases hex : isCertExcluded cert rules with
          | true =>
              simpa [filterCerts, List.filterMap_cons, hp, hex] using ih'
          | false =>
              have hdec : decodeB64 (String.mk (encodeB64 der)).toList = some der := by
                have : (String.mk (encodeB64 der)).toList = encodeB64 der := rfl
                rw [this, decodeB64_encodeB64 der hder]
              simp only [filterCerts, List.filterMap_cons, hp, hex, if_false,
                Bool.false_eq_true, reduceIte] at ih' ⊢
              simp only [decodeBase64Certs, List.filterMap_cons, hdec] at ih' ⊢
              simp only [filterCerts, List.filterMap_cons, hp, hex, if_false,
                Bool.false_eq_true, reduceIte] at ih' ⊢
              rw [ih']

/-- Witness for C6 at a concrete input: two one-byte certificates, a parse
function recognising them, and a rule excluding the first by issuer. -/
theorem filterCerts_idempotent_witness :
    (∀ der ∈ [[1], [2]], ∀ b ∈ der, b < 256) ∧
    filterCerts
        (fun der => if der = [1] then some ⟨"CN=Evil CA", "evil.test"⟩
          else if der = [2] then some ⟨"CN=Good CA", "good.test"⟩ else none)
        (decodeBase64Certs (filterCerts
          (fun der => if der = [1] then some ⟨"CN=Evil CA", "evil.test"⟩
            else if der = [2] then some ⟨"CN=Good CA", "good.test"⟩ else none)
          [[1], [2]] [⟨"*Evil*", ""⟩]))
        [⟨"*Evil*", ""⟩] =
      filterCerts
        (fun der => if der = [1] then some ⟨"CN=Evil CA", "evil.test"⟩
          else if der = [2] then some ⟨"CN=Good CA", "good.test"⟩ else none)
        [[1], [2]] [⟨"*Evil*", ""⟩] :=
  ⟨by decide, filterCerts_idempotent _ _ _ (by decide)⟩

/-! ### Handshake prober -/

/-- Embedding of `ScanResult` (scanner.go, protocol-aware version). -/
structure ScanResult where
  ip : String
  port : Nat
  hostname : String
  handshakeType : String
  certificates : List String
  timestamp : Int
  deriving DecidableEq

/-- The ECDSA-family cipher-suite code points offered by the scanner
(`ecdsaSuites` in `defaultTLSHandler`). -/
def ecdsaCipherSuites : List Nat :=
  [0xc02b, 0xc02c, 0xcca9, 0xc023, 0xc00a, 0xc009, 0xc007]

/-- The RSA-family cipher-suite code points offered by the scanner
(`rsaSuites` in `defaultTLSHandler`). -/
def rsaCipherSuites : List Nat :=
  [0xc02f, 0xc030, 0xcca8, 0xc027, 0xc014, 0xc013, 0xc012, 0xc011,
   0x9c, 0x9d, 0x3c, 0x35, 0x2f, 0xa, 0x5]

/-- Embedding of the certificate harvesting in
`tlsHandshakeAndCollectWithTimeout` (scanner.go): given the peer chain a
successful handshake presented (each certificate as DER bytes), the probe
base64-encodes every chain element in order — with no deduplication — and
fails with a no-certificates error on an empty chain. The network handshake
itself is external; its outcome (the peer chain) is the argument. -/
def tlsHandshakeAndCollect (ip hostname : String) (port : Nat)
    (handshakeType : String) (now : Int)
    (peerCertificates : List (List Nat)) : Option ScanResult :=
  let certs := peerCertificates.map fun cert => String.mk (encodeB64 cert)
  if certs.length = 0 then none
  else some ⟨ip, port, hostname, handshakeType, certs, now⟩

/-- C4 (code evaluated at the failing input): a handshake whose peer chain
holds two byte-identical certificates produces a ScanResult whose certificate
list keeps both copies — `["AQ==", "AQ=="]`, length 2 with a duplicate —
where the claim demands exactly N−K = 1 unique entry. The probe in the
protocol-aware path performs no deduplication; only the legacy scan path
(`certMap` in the legacy `ScanAndSendWithProtocol`) does. -/
theorem tlsHandshakeAndCollect_duplicate :
    (tlsHandshakeAndCollect "198.51.100.7" "dup.example" 443 "rsa" 0
        [[1], [1]]).map ScanResult.certificates = some ["AQ==", "AQ=="] ∧
    ¬ (["AQ==", "AQ=="] : List String).Nodup := by
  constructor
  · rfl
  · decide

/-! ### Default TLS handler (gather both families, filter, send) -/

/-- The in-place certificate filtering `defaultTLSHandler` applies to one
gathered result: `results[i].Certificates =
filterCerts(decodeBase64Certs(results[i].Certificates), excludeCerts)`. -/
def applyExclusionFilter (parse : List Nat → Option Cert)
    (rules : List ExcludeCertRule) (r : ScanResult) : ScanResult :=
  { r with certificates := filterCerts parse (decodeBase64Certs r.certificates) rules }

/-- Embedding of `defaultTLSHandler` (scanner.go): run the ECDSA-family probe
and the RSA-family probe (both always, sequentially and independently —
`probe` models `tlsHandshakeAndCollectWithTimeout` as seen from this
function, keyed by the suite list and handshake type it is called with),
append each successful result, filter every result's certificates with the
exclusion rules, and send the results slice to the webhook when it is
non-empty. Returns the payload handed to `sendToWebhook` (none when nothing
is sent) and the handler's `true` return value. -/
def defaultTLSHandler (probe : List Nat → String → Option ScanResult)
    (parse : List Nat → Option Cert) (excludeCerts : List ExcludeCertRule) :
    Option (List ScanResult) × Bool :=
  let results : List ScanResult := []
  let results := match probe ecdsaCipherSuites "ecdsa" with
    | some r => results ++ [r]
    | none => results
  let results := match probe rsaCipherSuites "rsa" with
    | some r => results ++ [r]
    | none => results
  let results := results.map (applyExclusionFilter parse excludeCerts)
  (if 0 < results.length then some results else none, true)

/-- C8: within one port's direct-TLS scan, both family probes are attempted
independently and the sent payload is exactly the union of the successful
families, each passed through the exclusion filter: nothing when both fail,
exactly the RSA result when only RSA succeeds, exactly the ECDSA result when
only ECDSA succeeds, and both (ECDSA first) when both succeed. In
particular, failure of one family never suppresses the other's result. -/
theorem defaultTLSHandler_family_independence
    (probe : List Nat → String → Option ScanResult)
    (parse : List Nat → Option Cert) (rules : List ExcludeCertRule) :
    (probe ecdsaCipherSuites "ecdsa" = none → probe rsaCipherSuites "rsa" = none →
      (defaultTLSHandler probe parse rules).1 = none) ∧
    (∀ r, probe ecdsaCipherSuites "ecdsa" = none →
      probe rsaCipherSuites "rsa" = some r →
      (defaultTLSHandler probe parse rules).1 = some [applyExclusionFilter parse rules r]) ∧
    (∀ e, probe ecdsaCipherSuites "ecdsa" = some e →
      probe rsaCipherSuites "rsa" = none →
      (defaultTLSHandler probe parse rules).1 = some [applyExclusionFilter parse rules e]) ∧
    (∀ e r, probe ecdsaCipherSuites "ecdsa" = some e →
      probe rsaCipherSuites "rsa" = some r →
      (defaultTLSHandler probe parse rules).1 =
        some [applyExclusionFilter parse rules e, applyExclusionFilter parse rules r]) := by
  refine ⟨fun he hr => ?_, fun r he hr => ?_, fun e he hr => ?_, fun e r he hr => ?_⟩ <;>
    simp [defaultTLSHandler, he, hr]

/-- Witness for C8: with a probe where only the RSA family succeeds, exactly
the (filtered) RSA ScanResult is sent. -/
theorem defaultTLSHandler_family_independence_witness :
    (defaultTLSHandler
        (fun _ ht => if ht = "rsa" then
          some ⟨"192.0.2.9", 443, "only-rsa.example", "rsa", ["AQ=="], 0⟩ else none)
        (fun _ => none) []).1 =
      some [applyExclusionFilter (fun _ => none) []
        ⟨"192.0.2.9", 443, "only-rsa.example", "rsa", ["AQ=="], 0⟩] :=
  (defaultTLSHandler_family_independence
      (fun _ ht => if ht = "rsa" then
        some ⟨"192.0.2.9", 443, "only-rsa.example", "rsa", ["AQ=="], 0⟩ else none)
      (fun _ => none) []).2.1
    ⟨"192.0.2.9", 443, "only-rsa.example", "rsa", ["AQ=="], 0⟩ (by decide) (by decide)

/-- C2 (code evaluated at the failing input): an RSA-only probe result whose
single certificate is excluded by the rule `{issuer: "*Evil*"}` is *still
forwarded* to the webhook as a ScanResult with an empty certificate list —
`defaultTLSHandler` only checks that the results slice is non-empty, not that
a filtered result kept any certificates. The claim (and the spec) require the
emptied result to be dropped. `"AQ=="` decodes to the DER bytes `[1]`, which
the parse function maps to a certificate with issuer `CN=Evil CA`. -/
theorem defaultTLSHandler_forwards_empty_result :
    (defaultTLSHandler
        (fun _ ht => if ht = "rsa" then
          some ⟨"192.0.2.1", 443, "evil.example", "rsa", ["AQ=="], 0⟩ else none)
        (fun der => if der = [1] then some ⟨"CN=Evil CA", "evil.example"⟩ else none)
        [⟨"*Evil*", ""⟩]).1 =
      some [⟨"192.0.2.1", 443, "evil.example", "rsa", [], 0⟩] := by
  decide

/-! ### Protocol dispatcher (ScanAndSendWithProtocol, protocol-aware) -/

/-- The web-port set of `ScanAndSendWithProtocol` (scanner.go):
`{443, 8443, 4433, 5001, 10443}`. -/
def webPorts (port : Nat) : Bool :=
  [443, 8443, 4433, 5001, 10443].contains port

/-- The SMTP-port set of `ScanAndSendWithProtocol` (scanner.go):
`{25, 465, 587}`. -/
def smtpPorts (port : Nat) : Bool :=
  [25, 465, 587].contains port

/-- Embedding of the effective-protocol resolution in each port task of
`ScanAndSendWithProtocol` (scanner.go):
`if proto == "" && webPorts[port] { proto = "http1" }
 else if smtpPorts[port] { proto = "smtp" }`. -/
def resolveProto (protocol : String) (port : Nat) : String :=
  if protocol = "" ∧ webPorts port then "http1"
  else if smtpPorts port then "smtp"
  else protocol

/-- Embedding of `AllowedProtocols` (scanner.go). -/
def allowedProtocols : List String :=
  ["http1", "h2", "h3", "smtp", "ldap", "imap", "pop3", "custom"]

/-- The keys of the `protocolHandlers` map (scanner.go). -/
def protocolHandlerKeys : List String :=
  ["smtp", "imap", "pop3", "ldap", "custom", "http1", "h2", "h3"]

/-- What one port task of `ScanAndSendWithProtocol` decides to do after
resolving the effective protocol: reject a resolved protocol outside the
allow-list (logged, no scan); run the mapped handler when the map has the
key; otherwise log the missing handler and return — despite the log line's
wording, no fallback scan and no network I/O happens in that branch. -/
inductive PortTaskAction where
  | rejected
  | runHandler (protoKey : String)
  | noHandler
  deriving DecidableEq

/-- Embedding of the body of each port goroutine in
`ScanAndSendWithProtocol` (scanner.go), up to the handler invocation. -/
def portTask (protocol : String) (port : Nat) : PortTaskAction :=
  let proto := resolveProto protocol port
  if proto ≠ "" ∧ proto ∉ allowedProtocols then .rejected
  else if proto ∈ protocolHandlerKeys then .runHandler proto
  else .noHandler

/-- C1 counterexample: with the non-empty explicit protocol `"http1"` and
port 25, the resolved protocol is `"smtp"`, not the argument — the explicit
argument does not always win. -/
theorem resolveProto_explicit_loses :
    resolveProto "http1" 25 = "smtp" ∧ ("smtp" : String) ≠ "http1" := by
  decide

/-- C1 amended: the SMTP-port default overrides even a non-empty explicit
protocol — a non-empty argument resolves to `"smtp"` on ports 25/465/587 and
to itself on every other port; an empty argument resolves to `"http1"` on
web ports 443/8443/4433/5001/10443, to `"smtp"` on SMTP ports, and is left
empty otherwise. -/
theorem resolveProto_amended (protocol : String) (port : Nat) :
    (protocol ≠ "" →
      resolveProto protocol port =
        if port = 25 ∨ port = 465 ∨ port = 587 then "smtp" else protocol) ∧
    (resolveProto "" port =
      if port = 443 ∨ port = 8443 ∨ port = 4433 ∨ port = 5001 ∨ port = 10443 then "http1"
      else if port = 25 ∨ port = 465 ∨ port = 587 then "smtp"
      else "") := by
  have hw : webPorts port = true ↔
      (port = 443 ∨ port = 8443 ∨ port = 4433 ∨ port = 5001 ∨ port = 10443) := by
    simp [webPorts]
  have hs : smtpPorts port = true ↔ (port = 25 ∨ port = 465 ∨ port = 587) := by
    simp [smtpPorts]
  constructor
  · intro hne
    simp only [resolveProto]
    split_ifs <;> simp_all
  · simp only [resolveProto]
    split_ifs <;> simp_all

/-- Witness for C1's amended theorem at protocol `"http1"`, port 25 and at
the empty protocol, port 25. -/
theorem resolveProto_amended_witness :
    resolveProto "http1" 25 = "smtp" ∧ resolveProto "" 25 = "smtp" := by
  constructor
  · have h := (resolveProto_amended "http1" 25).1 (by decide)
    simpa using h
  · have h := (resolveProto_amended "" 25).2
    simpa using h

/-- C10: when the protocol argument is empty and the port is neither a web
port nor an SMTP port, the port task resolves no protocol handler: the
effective protocol stays `""`, the allow-list check does not reject it (it
only rejects non-empty protocols), the handler map has no `""` key, and the
goroutine returns without scanning — no probe, no network I/O, no result. -/
theorem portTask_skips_unclassified_ports (port : Nat)
    (hw : ¬ webPorts port = true) (hs : ¬ smtpPorts port = true) :
    portTask "" port = .noHandler := by
  simp only [portTask, resolveProto, hw, hs]
  simp [allowedProtocols, protocolHandlerKeys]

/-- Witness for C10 at the default-port-list ports 993 (IMAPS) and 995
(POP3S): both are silently skipped. -/
theorem portTask_skips_unclassified_ports_witness :
    portTask "" 993 = .noHandler ∧ portTask "" 995 = .noHandler :=
  ⟨portTask_skips_unclassified_ports 993 (by decide) (by decide),
   portTask_skips_unclassified_ports 995 (by decide) (by decide)⟩

/-! ### Scan scheduler admission gate -/

/-- Outcome of running the port-launch loop of `ScanAndSendWithProtocol`:
`panicked` models `make(chan struct{}, n)` with negative `n`; `blocked`
models the main goroutine stuck forever in `sem <- struct{}{}`; `completed`
means every port task was launched and `wg.Wait()` returned. In each case
`attempted` lists the ports whose task was actually launched, in order. -/
inductive SchedulerOutcome where
  | panicked
  | blocked (attempted : List Nat)
  | completed (attempted : List Nat)
  deriving DecidableEq

/-- The admission-gate loop of `ScanAndSendWithProtocol` (scanner.go): for
each port the main goroutine sends into `sem` (capacity `cap`) and then
launches the port goroutine, which releases its token on exit. `s` counts
tokens currently held (launched tasks not yet released). A send succeeds at
once while `s < cap`; with the buffer full it can only complete after some
in-flight task (`0 < s`) terminates — every task does terminate, since all
its network operations carry timeouts — and with `cap = 0` and no task in
flight no release can ever come, so the send blocks forever. Returns the
ports launched and whether the loop (and the following `wg.Wait`) finished. -/
def launchPorts (cap : Nat) : Nat → List Nat → List Nat × Bool
  | _, [] => ([], true)
  | s, p :: rest =>
      if s < cap then
        let r := launchPorts cap (s + 1) rest
        (p :: r.1, r.2)
      else if 0 < s then
        let r := launchPorts cap s rest
        (p :: r.1, r.2)
      else ([], false)

/-- Modelled from the spec: the configuration loading in `internal/config`
(declared and used by the code under src/ but itself not included there)
yields the configured concurrency limit, "a non-positive/unset limit
defaults to a small safe constant, e.g. 1". -/
def configConcurrencyLimit (raw : Int) : Int :=
  if raw ≤ 0 then 1 else raw

/-- The scheduler of `ScanAndSendWithProtocol` as it uses the configured
limit: `make(chan struct{}, n)` panics for negative `n`; otherwise the
launch loop runs with that capacity. -/
def scanSchedulerGate (concurrencyLimit : Int) (ports : List Nat) : SchedulerOutcome :=
  if concurrencyLimit < 0 then .panicked
  else
    let r := launchPorts concurrencyLimit.toNat 0 ports
    if r.2 then .completed r.1 else .blocked r.1

theorem launchPorts_of_pos (cap : Nat) (hcap : 1 ≤ cap) :
    ∀ (ports : List Nat) (s : Nat), launchPorts cap s ports = (ports, true) := by
  intro ports
  induction ports with
  | nil => intro s; rfl
  | cons p rest ih =>
      intro s
      by_cases h : s < cap
      · simp [launchPorts, h, ih]
      · have hpos : 0 < s := by omega
        simp [launchPorts, h, hpos, ih]

/-- C3: for every configuration in which the concurrency limit is unset,
zero, or negative, the scheduler runs its admission gate with the loaded
(defaulted, hence positive) capacity, so it launches a task for every port
and returns — it neither blocks forever nor fails. The defaulting itself is
modelled from the spec (`configConcurrencyLimit`), since `internal/config`
is not part of the sources here; the gate behaviour is the source's. -/
theorem scanSchedulerGate_defaulted_completes (raw : Int) (ports : List Nat)
    (h : raw ≤ 0) :
    scanSchedulerGate (configConcurrencyLimit raw) ports = .completed ports := by
  have hc : configConcurrencyLimit raw = 1 := by
    simp [configConcurrencyLimit, h]
  rw [hc]
  simp [scanSchedulerGate, launchPorts_of_pos 1 (by omega)]

/-- Witness for C3 at the unset (zero) limit and the default port list. -/
theorem scanSchedulerGate_defaulted_completes_witness :
    scanSchedulerGate (configConcurrencyLimit 0) [443, 465, 587, 993, 995] =
      .completed [443, 465, 587, 993, 995] :=
  scanSchedulerGate_defaulted_completes 0 [443, 465, 587, 993, 995] (by decide)

/-! ### Result sink status handling (sendToWebhook) -/

/-- What `sendToWebhook` (scanner.go) does after reading the response
status: a 2xx status is a successful delivery; any other status is logged
and the batch dropped, except that a 403 with `shared.Config == nil ||
shared.Config.Token == ""` prints remediation guidance and calls
`os.Exit(1)`. -/
inductive SinkReaction where
  | delivered
  | logDropContinue
  | fatalExit
  deriving DecidableEq

/-- Embedding of the status handling at the end of `sendToWebhook`
(scanner.go). `configPresent` models `shared.Config != nil` and `token` the
configured token string. -/
def webhookStatusReaction (status : Nat) (configPresent : Bool) (token : String) :
    SinkReaction :=
  if status < 200 ∨ 300 ≤ status then
    if status = 403 ∧ (configPresent = false ∨ token = "") then .fatalExit
    else .logDropContinue
  else .delivered

/-- C9: a 403 response with no token configured terminates the process
(after remediation guidance); every other non-2xx response is logged, the
batch dropped, and scanning continues. -/
theorem webhookStatusReaction_spec (status : Nat) (configPresent : Bool)
    (token : String) :
    (status = 403 → configPresent = false ∨ token = "" →
      webhookStatusReaction status configPresent token = .fatalExit) ∧
    ((status < 200 ∨ 300 ≤ status) →
      ¬ (status = 403 ∧ (configPresent = false ∨ token = "")) →
      webhookStatusReaction status configPresent token = .logDropContinue) := by
  constructor
  · intro h403 hno
    subst h403
    simp [webhookStatusReaction, hno]
  · intro hnon2xx hnotfatal
    simp [webhookStatusReaction, hnon2xx, hnotfatal]

/-- Witness for C9: 403 with no token is fatal; 403 with a token, and 500
with no token, merely drop the batch and continue. -/
theorem webhookStatusReaction_spec_witness :
    webhookStatusReaction 403 true "" = .fatalExit ∧
    webhookStatusReaction 403 true "tok" = .logDropContinue ∧
    webhookStatusReaction 500 true "tok" = .logDropContinue :=
  ⟨(webhookStatusReaction_spec 403 true "").1 rfl (Or.inr rfl),
   (webhookStatusReaction_spec 403 true "tok").2 (by decide) (by decide),
   (webhookStatusReaction_spec 500 true "tok").2 (by decide) (by decide)⟩

/-! ### SMTP STARTTLS upgrader (scanSMTPStartTLS) -/

/-- Error taxonomy of `scanSMTPStartTLS` (scanner.go), one constructor per
`return nil, fmt.Errorf(...)` site: dial failure, greeting read failure,
EHLO reply read failure, STARTTLS capability missing, STARTTLS command
refused or its reply unreadable, TLS handshake failure, empty peer chain. -/
inductive SMTPError where
  | dialError
  | greetingError
  | ehloReadError
  | unsupported
  | starttlsRefused
  | handshakeError
  | noCerts
  deriving DecidableEq

/-- A scripted SMTP server as `scanSMTPStartTLS` observes it over the wire:
whether the TCP dial succeeds, the greeting line (none = read failure), the
EHLO reply lines delivered in order (exhaustion = read failure), the reply
line to STARTTLS (none = read failure), and the peer chain presented by the
in-place TLS handshake (none = handshake failure). -/
structure SMTPServerScript where
  dialOK : Bool
  greeting : Option String
  ehloReplies : List String
  starttlsReply : Option String
  tlsChain : Option (List (List Nat))

/-- The literal EHLO command `scanSMTPStartTLS` writes. -/
def ehloCommand : String := "EHLO certscan\r\n"

/-- The literal STARTTLS command `scanSMTPStartTLS` writes. -/
def starttlsCommand : String := "STARTTLS\r\n"

/-- Prefix test on strings, modelling Go `strings.HasPrefix`. -/
def strHasPrefix (s pre : String) : Bool :=
  pre.toList.isPrefixOf s.toList

/-- The EHLO reply loop of `scanSMTPStartTLS`: collect lines while each
starts with `"250-"`, appending the first non-continuation line as well and
stopping there; running out of lines models a read failure (`none`). -/
def readEhloLines : List String → Option (List String)
  | [] => none
  | l :: rest =>
      if strHasPrefix l "250-" then (readEhloLines rest).map (fun ls => l :: ls)
      else some [l]

/-- Model of the capability scan `strings.Contains(strings.ToUpper(l),
"STARTTLS")` from `scanSMTPStartTLS`. -/
def lineMentionsSTARTTLS (l : String) : Bool :=
  listContains (l.toList.map toUpperChar) "STARTTLS".toList

/-- Result of one STARTTLS attempt: the commands written to the connection,
in order, and either a terminal error or the single harvested ScanResult
(the certificates are the base64-encoded peer chain; no partial result
accompanies an error). -/
structure SMTPAttempt where
  writes : List String
  outcome : Except SMTPError ScanResult

/-- Embedding of `scanSMTPStartTLS` (scanner.go) over a scripted server:
dial, read greeting (content unvalidated), send EHLO, read the multiline
reply, require the STARTTLS capability before sending `STARTTLS\r\n`,
require a `"220"`-prefixed reply, upgrade to TLS and harvest the peer
chain. The STARTTLS-path result carries no handshake type. -/
def scanSMTPStartTLS (ip hostname : String) (port : Nat) (now : Int)
    (server : SMTPServerScript) : SMTPAttempt :=
  if server.dialOK = false then ⟨[], .error .dialError⟩
  else
    match server.greeting with
    | none => ⟨[], .error .greetingError⟩
    | some _ =>
      match readEhloLines server.ehloReplies with
      | none => ⟨[ehloCommand], .error .ehloReadError⟩
      | some lines =>
        if lines.any lineMentionsSTARTTLS = false then
          ⟨[ehloCommand], .error .unsupported⟩
        else
          match server.starttlsReply with
          | none => ⟨[ehloCommand, starttlsCommand], .error .starttlsRefused⟩
          | some line =>
            if strHasPrefix line "220" = false then
              ⟨[ehloCommand, starttlsCommand], .error .starttlsRefused⟩
            else
              match server.tlsChain with
              | none => ⟨[ehloCommand, starttlsCommand], .error .handshakeError⟩
              | some chain =>
                if chain.length = 0 then
                  ⟨[ehloCommand, starttlsCommand], .error .noCerts⟩
                else
                  ⟨[ehloCommand, starttlsCommand],
                    .ok ⟨ip, port, hostname, "",
                      chain.map (fun c => String.mk (encodeB64 c)), now⟩⟩

/-- C7: (a) when no collected EHLO reply line mentions STARTTLS
(case-insensitively), the attempt fails with the unsupported-capability
error and `STARTTLS\r\n` is never written; (b) whenever `STARTTLS\r\n` was
written and the server's reply does not start with `"220"`, the attempt
fails with the protocol error for the STARTTLS exchange — an error outcome,
so no partial result is produced. -/
theorem scanSMTPStartTLS_starttls_guard (ip hostname : String) (port : Nat)
    (now : Int) (server : SMTPServerScript) :
    (∀ lines, server.dialOK = true → server.greeting.isSome = true →
      readEhloLines server.ehloReplies = some lines →
      lines.any lineMentionsSTARTTLS = false →
      (scanSMTPStartTLS ip hostname port now server).outcome = .error .unsupported ∧
        starttlsCommand ∉ (scanSMTPStartTLS ip hostname port now server).writes) ∧
    (∀ reply, starttlsCommand ∈ (scanSMTPStartTLS ip hostname port now server).writes →
      server.starttlsReply = some reply → strHasPrefix reply "220" = false →
      (scanSMTPStartTLS ip hostname port now server).outcome =
        .error .starttlsRefused) := by
  constructor
  · intro lines hdial hgreet hehlo hno
    obtain ⟨g, hg⟩ := Option.isSome_iff_exists.mp hgreet
    refine ⟨?_, ?_⟩ <;>
      simp [scanSMTPStartTLS, hdial, hg, hehlo, hno, starttlsCommand, ehloCommand]
  · intro reply hmem hreply h220
    by_cases hdial : server.dialOK = false
    · simp [scanSMTPStartTLS, hdial] at hmem
    · cases hg : server.greeting with
      | none => simp [scanSMTPStartTLS, hdial, hg] at hmem
      | some g =>
          cases hehlo : readEhloLines server.ehloReplies with
          | none =>
              simp [scanSMTPStartTLS, hdial, hg, hehlo,
                starttlsCommand, ehloCommand] at hmem
          | some lines =>
              by_cases hany : lines.any lineMentionsSTARTTLS = false
              · simp [scanSMTPStartTLS, hdial, hg, hehlo, hany,
                  starttlsCommand, ehloCommand] at hmem
              · simp [scanSMTPStartTLS, hdial, hg, hehlo, hany, hreply, h220]

/-- Witness for C7: a server whose EHLO reply lacks STARTTLS fails
unsupported with nothing but EHLO written; a server advertising STARTTLS but
answering `454` to it fails with the STARTTLS protocol error. -/
theorem scanSMTPStartTLS_starttls_guard_witness :
    ((scanSMTPStartTLS "192.0.2.5" "mx.example" 25 0
        ⟨true, some "220 mx.example ESMTP\r\n",
          ["250-SIZE 35882577\r\n", "250 OK\r\n"], some "220 Ready\r\n",
          some [[1]]⟩).outcome = .error .unsupported ∧
      starttlsCommand ∉ (scanSMTPStartTLS "192.0.2.5" "mx.example" 25 0
        ⟨true, some "220 mx.example ESMTP\r\n",
          ["250-SIZE 35882577\r\n", "250 OK\r\n"], some "220 Ready\r\n",
          some [[1]]⟩).writes) ∧
    (scanSMTPStartTLS "192.0.2.6" "mx2.example" 587 0
        ⟨true, some "220 mx2.example ESMTP\r\n",
          ["250-STARTTLS\r\n", "250 OK\r\n"], some "454 TLS not available\r\n",
          some [[1]]⟩).outcome = .error .starttlsRefused :=
  ⟨(scanSMTPStartTLS_starttls_guard "192.0.2.5" "mx.example" 25 0
      ⟨true, some "220 mx.example ESMTP\r\n",
        ["250-SIZE 35882577\r\n", "250 OK\r\n"], some "220 Ready\r\n",
        some [[1]]⟩).1
      ["250-SIZE 35882577\r\n", "250 OK\r\n"] rfl rfl (by decide) (by decide),
   (scanSMTPStartTLS_starttls_guard "192.0.2.6" "mx2.example" 587 0
      ⟨true, some "220 mx2.example ESMTP\r\n",
        ["250-STARTTLS\r\n", "250 OK\r\n"], some "454 TLS not available\r\n",
        some [[1]]⟩).2
      "454 TLS not available\r\n" (by decide) rfl (by decide)⟩

end Certscan
